import Mathlib

/-!
Verification of the text/link extraction and section-replacement core of the
obsidian recipe-extraction plugin.

Strings are embedded as `List Char` (named `Str` below).  Every function is a
direct shallow embedding of the corresponding TypeScript routine; the JS
regular expressions used by the plugin are deterministic (their character
classes exclude the delimiters that follow them, so greedy matching never
backtracks usefully), and are embedded as explicit scanners.
-/

namespace RecipePlugin

/-- Strings are modelled as lists of characters. -/
abbrev Str := List Char

/-- The JavaScript whitespace class (used by `String.prototype.trim` and the
regex class `\s`): tab, LF, VT, FF, CR, space, NBSP, and the Unicode space
separators recognised by JS engines. -/
def jsWhitespace (c : Char) : Bool :=
  c.val = 9 || c.val = 10 || c.val = 11 || c.val = 12 || c.val = 13 ||
  c.val = 32 || c.val = 160 || c.val = 0x1680 ||
  (0x2000 ≤ c.val && c.val ≤ 0x200a) ||
  c.val = 0x2028 || c.val = 0x2029 || c.val = 0x202f || c.val = 0x205f ||
  c.val = 0x3000 || c.val = 0xfeff

/-- Regex word characters (`\w`), used for the `\b` boundary assertion. -/
def isWordChar (c : Char) : Bool :=
  ('a' ≤ c && c ≤ 'z') || ('A' ≤ c && c ≤ 'Z') || ('0' ≤ c && c ≤ '9') || c = '_'

/-- `String.prototype.trim`: drop JS whitespace from both ends. -/
def jsTrim (s : Str) : Str :=
  ((s.dropWhile jsWhitespace).reverse.dropWhile jsWhitespace).reverse

/-- `trim` on Lean `String`s, for the parts of the model that keep `String`. -/
def jsTrimS (s : String) : String :=
  String.mk (jsTrim s.toList)

/-! ### A generic engine for `String.prototype.replace(regex, "")`

`replAllAux try fuel s` scans `s` left to right; whenever `try` matches a
nonempty prefix of the rest of the string it deletes that prefix and resumes
scanning immediately after it (exactly the semantics of a global regex
replace with an empty replacement).  `fuel` only serves termination and is
always instantiated with the length of the string. -/

def replAllAux (tryFn : List Char → Option Nat) : Nat → List Char → List Char
  | 0, s => s
  | _ + 1, [] => []
  | fuel + 1, c :: rest =>
    match tryFn (c :: rest) with
    | some (n + 1) => replAllAux tryFn fuel (rest.drop n)
    | _ => c :: replAllAux tryFn fuel rest

def replAll (tryFn : List Char → Option Nat) (s : Str) : Str :=
  replAllAux tryFn s.length s

/-! ### The three image-embed removers of `stripImageEmbeds`

Source: `stripImageEmbeds` applies, in order,
`/!\[\[[^\]]+\]\]/g`, `/!\[[^\]]*\]\([^\)]+\)/g` and `/<img[^>]*>/gi`,
each with replacement `""`. -/

/-- Matcher for `/!\[\[[^\]]+\]\]/` at the head of the list. -/
def wikiStripTry : List Char → Option Nat
  | '!' :: '[' :: '[' :: rest =>
    let body := rest.takeWhile (fun c => c != ']')
    if body.isEmpty then none
    else
      match rest.drop body.length with
      | ']' :: ']' :: _ => some (3 + body.length + 2)
      | _ => none
  | _ => none

/-- Matcher for `/!\[[^\]]*\]\([^\)]+\)/` at the head of the list. -/
def mdStripTry : List Char → Option Nat
  | '!' :: '[' :: rest =>
    let alt := rest.takeWhile (fun c => c != ']')
    match rest.drop alt.length with
    | ']' :: '(' :: r1 =>
      let inner := r1.takeWhile (fun c => c != ')')
      if inner.isEmpty then none
      else
        match r1.drop inner.length with
        | ')' :: _ => some (2 + alt.length + 2 + inner.length + 1)
        | _ => none
    | _ => none
  | _ => none

/-- Matcher for `/<img[^>]*>/i` at the head of the list. -/
def imgStripTry : List Char → Option Nat
  | '<' :: a :: b :: c :: rest =>
    if a.toLower = 'i' && b.toLower = 'm' && c.toLower = 'g' then
      let attrs := rest.takeWhile (fun x => x != '>')
      match rest.drop attrs.length with
      | '>' :: _ => some (4 + attrs.length + 1)
      | _ => none
    else none
  | _ => none

/-- `stripImageEmbeds` (src/unnamed/part_003 lines 648-663): removes
wiki image embeds, then markdown image embeds, then HTML img tags. -/
def stripImageEmbeds (content : Str) : Str :=
  let withoutWikiImages := replAll wikiStripTry content
  let withoutMarkdownImages := replAll mdStripTry withoutWikiImages
  let withoutHtmlImages := replAll imgStripTry withoutMarkdownImages
  withoutHtmlImages

/-! ### `findImageLinks`

Source: `findImageLinks` (src/unnamed/part_003 lines 597-617) runs
`/!\[\[([^\]|#]+)(?:#[^\]|]*)?(?:\|[^\]]+)?\]\]/g` and then
`/!\[[^\]]*\]\(([^\)\s]+)(?:\s+"[^"]*")?\)/g` over the content with
`matchAll`, pushing `{linkPath: match[1], start: match.index}` for each
match of each regex into one array. -/

/-- One image-link match: the captured target path and the index of the
first character of the whole matched syntax. -/
structure ImageLinkMatch where
  linkPath : Str
  start : Nat
  deriving DecidableEq, Repr

/-- `matchAll` engine: scan positions left to right; on a match of length
`n+1` with capture `cap`, record it and resume scanning after the match
(regex `lastIndex` semantics).  `fuel` is instantiated with the length of
the string. -/
def scanAux (tryFn : List Char → Option (List Char × Nat)) :
    Nat → List Char → Nat → List ImageLinkMatch
  | 0, _, _ => []
  | _ + 1, [], _ => []
  | fuel + 1, c :: rest, pos =>
    match tryFn (c :: rest) with
    | some (cap, n + 1) => ⟨cap, pos⟩ :: scanAux tryFn fuel (rest.drop n) (pos + n + 1)
    | _ => scanAux tryFn fuel rest (pos + 1)

def scanMatches (tryFn : List Char → Option (List Char × Nat)) (s : Str) :
    List ImageLinkMatch :=
  scanAux tryFn s.length s 0

/-- Matcher for `/!\[\[([^\]|#]+)(?:#[^\]|]*)?(?:\|[^\]]+)?\]\]/` at the head
of the list, returning the capture and the match length. -/
def wikiImageTry : List Char → Option (List Char × Nat)
  | '!' :: '[' :: '[' :: rest =>
    let cap := rest.takeWhile (fun c => c != ']' && c != '|' && c != '#')
    if cap.isEmpty then none
    else
      let r1 := rest.drop cap.length
      let hseg : Nat × List Char :=
        match r1 with
        | '#' :: t =>
          let h := t.takeWhile (fun c => c != ']' && c != '|')
          (h.length + 1, t.drop h.length)
        | _ => (0, r1)
      let r2 := hseg.2
      let aseg : Nat × List Char :=
        match r2 with
        | '|' :: t =>
          let a := t.takeWhile (fun c => c != ']')
          if a.isEmpty then (0, r2) else (a.length + 1, t.drop a.length)
        | _ => (0, r2)
      match aseg.2 with
      | ']' :: ']' :: _ => some (cap, 3 + cap.length + hseg.1 + aseg.1 + 2)
      | _ => none
  | _ => none

/-- Matcher for `/!\[[^\]]*\]\(([^\)\s]+)(?:\s+"[^"]*")?\)/` at the head of
the list, returning the capture and the match length. -/
def mdImageTry : List Char → Option (List Char × Nat)
  | '!' :: '[' :: rest =>
    let alt := rest.takeWhile (fun c => c != ']')
    match rest.drop alt.length with
    | ']' :: '(' :: r1 =>
      let cap := r1.takeWhile (fun c => c != ')' && !(jsWhitespace c))
      if cap.isEmpty then none
      else
        let r2 := r1.drop cap.length
        let tseg : Nat × List Char :=
          let w := r2.takeWhile jsWhitespace
          if w.isEmpty then (0, r2)
          else
            match r2.drop w.length with
            | '"' :: t =>
              let ttl := t.takeWhile (fun c => c != '"')
              match t.drop ttl.length with
              | '"' :: r => (w.length + 1 + ttl.length + 1, r)
              | _ => (0, r2)
            | _ => (0, r2)
        match tseg.2 with
        | ')' :: _ => some (cap, 2 + alt.length + 2 + cap.length + tseg.1 + 1)
        | _ => none
    | _ => none
  | _ => none

/-- `findImageLinks` (src/unnamed/part_003 lines 597-617): all wiki-embed
matches, then all markdown-embed matches, each in `matchAll` order. -/
def findImageLinks (content : Str) : List ImageLinkMatch :=
  scanMatches wikiImageTry content ++ scanMatches mdImageTry content

/-! ### The `Need to buy` section locator and replacer

Source: `buildShoppingListFromMealPlan` (src/unnamed/part_003 lines
441-461 and 499-506).  The heading is found with
`/^(#{1,6})\s*Need to buy\b[^\n]*$/gim.exec`, its level recorded as
`match[1].length`, and the section end is the index of the first
`/^(#{1,6})\s+/gm` match strictly after the heading line whose level is
`≤` the recorded level, or the document length. -/

/-- The target phrase of the shopping-list heading. -/
def needToBuyPhrase : Str := "Need to buy".toList

/-- First index `j` with `i ≤ j < i + fuel` satisfying `p`. -/
def firstIdxAux (p : Nat → Bool) : Nat → Nat → Option Nat
  | _, 0 => none
  | i, fuel + 1 => if p i then some i else firstIdxAux p (i + 1) fuel

/-- First index in `[i, n)` satisfying `p` (leftmost-match regex search). -/
def firstIdx (p : Nat → Bool) (i n : Nat) : Option Nat :=
  firstIdxAux p i (n - i)

/-- The ECMA-262 LineTerminator set: LF, CR, LINE SEPARATOR and PARAGRAPH
SEPARATOR.  With the `m` flag, `^` matches right after any of these. -/
def isLineTerminator (c : Char) : Bool :=
  c = '\n' || c = '\r' || c.val = 0x2028 || c.val = 0x2029

/-- `i` is the start of a line of `s` (start of string, or right after a
LineTerminator); with the `m` flag this is where `^` matches. -/
def isLineStart (s : Str) (i : Nat) : Bool :=
  i = 0 || isLineTerminator (s.getD (i - 1) ' ')

/-- Length of the maximal run of `'#'` starting at index `i`. -/
def hashRun (s : Str) (i : Nat) : Nat :=
  ((s.drop i).takeWhile (fun c => c = '#')).length

/-- Length of the maximal run of JS whitespace starting at index `i`. -/
def wsRun (s : Str) (i : Nat) : Nat :=
  ((s.drop i).takeWhile jsWhitespace).length

/-- The characters of `pat` appear at index `i` of `s`, compared
case-insensitively (the regex `i` flag). -/
def phraseAtCI (s : Str) (i : Nat) (pat : Str) : Bool :=
  ((s.drop i).take pat.length).map Char.toLower = pat.map Char.toLower

/-- Index `i` of `s` holds a word character (false past the end). -/
def wordCharAt (s : Str) (i : Nat) : Bool :=
  decide (i < s.length) && isWordChar (s.getD i ' ')

/-- Index of the `'\n'` terminating the line that contains index `i`, or
the length of `s` (where `[^\n]*$` stops with the `m` flag). -/
def lineEndFrom (s : Str) (i : Nat) : Nat :=
  i + ((s.drop i).takeWhile (fun c => c != '\n')).length

/-- Match of `(#{1,6})\s*Need to buy\b[^\n]*$` starting at index `i`
(the `^` anchor is checked by the caller): returns the heading level and
the index one past the last matched character. -/
def needToBuyHeaderAt (s : Str) (i : Nat) : Option (Nat × Nat) :=
  let k := hashRun s i
  if 1 ≤ k && k ≤ 6 then
    let p := i + k + wsRun s (i + k)
    if phraseAtCI s p needToBuyPhrase && !(wordCharAt s (p + needToBuyPhrase.length)) then
      some (k, lineEndFrom s (p + needToBuyPhrase.length))
    else none
  else none

/-- Match of `(#{1,6})\s+` starting at index `i` (the `^` anchor is checked
by the caller): returns the heading level. -/
def headingMarkerAt (s : Str) (i : Nat) : Option Nat :=
  let k := hashRun s i
  if 1 ≤ k && k ≤ 6 && decide (i + k < s.length) && jsWhitespace (s.getD (i + k) ' ') then
    some k
  else none

/-- `i` starts a line whose head matches the `Need to buy` heading regex. -/
def needToBuyHeadingStart (s : Str) (i : Nat) : Bool :=
  isLineStart s i && (needToBuyHeaderAt s i).isSome

/-- `j` starts a line matching `^(#{1,6})\s+` whose level is `≤ lvl`. -/
def sectionTerminator (s : Str) (lvl : Nat) (j : Nat) : Bool :=
  isLineStart s j &&
    match headingMarkerAt s j with
    | some k => decide (k ≤ lvl)
    | none => false

/-- A located `Need to buy` section span. -/
structure SectionSpan where
  start : Nat
  level : Nat
  endIdx : Nat
  deriving DecidableEq, Repr

/-- The section-location logic of `buildShoppingListFromMealPlan`
(src/unnamed/part_003 lines 441-461). -/
def locateNeedToBuy (s : Str) : Option SectionSpan :=
  match firstIdx (fun i => needToBuyHeadingStart s i) 0 s.length with
  | none => none
  | some i =>
    match needToBuyHeaderAt s i with
    | none => none
    | some (lvl, afterHeader) =>
      some ⟨i, lvl,
        (firstIdx (fun j => sectionTerminator s lvl j) (afterHeader + 1) s.length).getD
          s.length⟩

/-- The separator appended after the replacement text
(src/unnamed/part_003 lines 499-501): `"\n"` if nothing follows the span,
`""` if the trailing text already starts with a newline, else `"\n"`. -/
def sectionSeparator (s : Str) (endIdx : Nat) : Str :=
  let trailingContent := s.drop endIdx
  if trailingContent = [] then ['\n']
  else if trailingContent.headD ' ' = '\n' then []
  else ['\n']

/-- The document produced by the section replacement
(src/unnamed/part_003 lines 499-503):
`planContent.slice(0, sectionStart) + updatedSection + separator +
planContent.slice(sectionEnd)` with `updatedSection = llmResult.trim()`. -/
def buildShoppingUpdate (planContent : Str) (span : SectionSpan) (llmResult : Str) : Str :=
  planContent.take span.start ++ jsTrim llmResult ++
    sectionSeparator planContent span.endIdx ++ planContent.drop span.endIdx

/-- The response gate of `buildShoppingListFromMealPlan`
(src/unnamed/part_003 lines 493-497): `/^#\s*Need to buy/i.test` on the
trimmed LLM response. -/
def needToBuyGate (llmResult : Str) : Bool :=
  let t := jsTrim llmResult
  t.headD ' ' = '#' && phraseAtCI t (1 + wsRun t 1) needToBuyPhrase

/-- Outcome of the shopping-list workflow after the LLM response arrives:
either a notice with no write, or a write of the new content. -/
inductive StepResult where
  | notice (msg : String)
  | write (content : Str)
  deriving DecidableEq, Repr

/-- The post-LLM step of `buildShoppingListFromMealPlan`
(src/unnamed/part_003 lines 493-506): reject the response unless the
trimmed text passes `/^#\s*Need to buy/i`, else replace the located span. -/
def shoppingListAfterLlm (planContent : Str) (span : SectionSpan) (llmResult : Str) :
    StepResult :=
  if needToBuyGate llmResult then
    .write (buildShoppingUpdate planContent span llmResult)
  else
    .notice "LLM response did not include a \x27# Need to buy\x27 section."

/-! ### Vault files and the image-path resolver -/

/-- A concrete vault file handle (the fields of `TFile` this core reads). -/
structure VFile where
  path : Str
  name : Str
  extension : Str
  deriving DecidableEq, Repr

/-- Result of `metadataCache.getFirstLinkpathDest`: `null`, a `TFile`, or
some other object (not an instance of `TFile`). -/
inductive LookupDest where
  | file (f : VFile)
  | notFile
  deriving DecidableEq, Repr

/-- `s.split(sep)[0]`: everything before the first occurrence of `sep`. -/
def splitFirst (sep : Char) (s : Str) : Str :=
  s.takeWhile (fun c => c != sep)

/-- The cleaning step of `resolveImageFile`:
`trimmed.split("|")[0].split("#")[0]`. -/
def cleanedTarget (trimmed : Str) : Str :=
  splitFirst '#' (splitFirst '|' trimmed)

/-- `/^https?:\/\//i.test` on the trimmed target. -/
def isHttpUrl (t : Str) : Bool :=
  let l := t.map Char.toLower
  l.take 7 = "http://".toList || l.take 8 = "https://".toList

/-- `trimmed.startsWith("data:")` (case-sensitive). -/
def isDataUrl (t : Str) : Bool :=
  t.take 5 = "data:".toList

/-- `resolveImageFile` (src/unnamed/part_003 lines 735-748), with the
metadata-cache lookup passed in as a collaborator.  Returns the resolved
file (or `none`) together with the list of arguments the lookup was
actually called with, so that "no lookup performed" is provable. -/
def resolveImageFile (lookup : Str → Option LookupDest) (linkPath : Str) :
    Option VFile × List Str :=
  let trimmed := jsTrim linkPath
  if trimmed = [] || isHttpUrl trimmed || isDataUrl trimmed then
    (none, [])
  else
    let cleaned := cleanedTarget trimmed
    match lookup cleaned with
    | some (.file f) => (some f, [cleaned])
    | _ => (none, [cleaned])

/-! ### The LLM transport contract (`callLlm`)

Source: `callLlm` (src/unnamed/part_003 lines 775-814). -/

/-- A parsed JSON value (the shape of `response.json`). -/
inductive Json where
  | null
  | str (s : String)
  | num (n : Int)
  | bool (b : Bool)
  | arr (elems : List Json)
  | obj (fields : List (String × Json))

/-- Optional chaining `a?.name`: property access on `undefined`/`null`
yields `undefined`; only objects carry named properties. -/
def jsonField (j : Option Json) (name : String) : Option Json :=
  match j with
  | some (.obj fields) => (fields.find? (fun f => f.1 = name)).map (·.2)
  | _ => none

/-- Optional chaining `a?.[0]`: first element of an array, the `"0"`
property of an object, or the first character of a string. -/
def jsonIdx0 (j : Option Json) : Option Json :=
  match j with
  | some (.arr elems) => elems.head?
  | some (.obj fields) => (fields.find? (fun f => f.1 = "0")).map (·.2)
  | some (.str s) => (s.toList.head?).map (fun c => Json.str (String.mk [c]))
  | _ => none

/-- `response.json?.choices?.[0]?.message?.content`. -/
def choicesContent (j : Option Json) : Option Json :=
  jsonField (jsonField (jsonIdx0 (jsonField j "choices")) "message") "content"

/-- An HTTP response as seen by `callLlm`: a status code and the parsed
JSON body (`none` when `response.json` is `undefined`). -/
structure LlmResponse where
  status : Nat
  json : Option Json

/-- The request headers built by `callLlm` (src/unnamed/part_003 lines
785-791): `Content-Type` always, `Authorization: Bearer <trimmed key>`
only when the trimmed API key is nonempty. -/
def buildHeaders (apiKey : String) : List (String × String) :=
  let base := [("Content-Type", "application/json")]
  if jsTrimS apiKey ≠ "" then
    base ++ [("Authorization", "Bearer " ++ jsTrimS apiKey)]
  else base

/-- `callLlm` (src/unnamed/part_003 lines 775-814) as a function of the
configured endpoint, the model argument and the HTTP response: the checks
before and after the network call, with `Except.error` standing for
`throw new Error(...)`. -/
def callLlm (endpoint model : String) (response : LlmResponse) :
    Except String String :=
  if jsTrimS endpoint = "" then .error "LLM endpoint is empty"
  else if jsTrimS model = "" then .error "Model is empty"
  else if response.status ≠ 200 then
    .error ("LLM request failed (" ++ toString response.status ++ ")")
  else
    match choicesContent response.json with
    | some (.str content) => .ok content
    | _ => .error "Unexpected LLM response shape"

/-! ### The per-image extraction loop (`extractRecipeInformationFromActiveFile`)

Source: src/unnamed/part_003 lines 385-431.  Matches are processed in
descending `start` order; the first failure (unresolved attachment, LLM
error, or blank LLM response) raises, is caught, surfaces one notice and
returns before `vault.modify` is ever called. -/

/-- Stable insertion into a list sorted by descending `start`
(`[...matches].sort((a, b) => b.start - a.start)`). -/
def insertByStartDesc (m : ImageLinkMatch) : List ImageLinkMatch → List ImageLinkMatch
  | [] => [m]
  | x :: xs => if x.start ≤ m.start then m :: x :: xs else x :: insertByStartDesc m xs

/-- Stable sort by descending `start`. -/
def sortByStartDesc : List ImageLinkMatch → List ImageLinkMatch
  | [] => []
  | m :: ms => insertByStartDesc m (sortByStartDesc ms)

/-- The body of the `for` loop over sorted matches: threads the updated
content; the first failing match aborts with the notice message the
`catch` block shows. -/
def extractLoop (resolver : Str → Option VFile) (llm : VFile → Except Str Str) :
    List ImageLinkMatch → Str → Except Str Str
  | [], updated => .ok updated
  | m :: rest, updated =>
    match resolver m.linkPath with
    | none => .error (m.linkPath ++ (": Attachment not found: ".toList ++ m.linkPath))
    | some f =>
      match llm f with
      | .error msg => .error (m.linkPath ++ (": ".toList ++ msg))
      | .ok r =>
        if jsTrim r = [] then
          .error (m.linkPath ++ (": LLM returned empty response for: ".toList ++ f.name))
        else
          extractLoop resolver llm rest
            (updated.take m.start ++ (jsTrim r ++ ('\n' :: '\n' :: updated.drop m.start)))

/-- Observable outcome of one run of the extraction workflow: the single
notice shown, and the content written by `vault.modify` (if any). -/
structure ExtractOutcome where
  notice : Str
  wrote : Option Str
  deriving DecidableEq, Repr

/-- `extractRecipeInformationFromActiveFile` (src/unnamed/part_003 lines
385-431) for an open markdown file with the given content, with the
resolver and the per-image LLM call passed in as collaborators. -/
def extractRecipeWorkflow (resolver : Str → Option VFile) (llm : VFile → Except Str Str)
    (noteContent : Str) : ExtractOutcome :=
  let found := findImageLinks noteContent
  if found.isEmpty then
    ⟨"No image attachments found in this file.".toList, none⟩
  else
    match extractLoop resolver llm (sortByStartDesc found) noteContent with
    | .error msg => ⟨msg, none⟩
    | .ok updated =>
      ⟨"Recipe information extracted and inserted detected images.".toList,
        if updated ≠ noteContent then some updated else none⟩

/-! ### The combined image-extraction workflow

Source: the current `extractRecipeInformationFromActiveFile`,
`callLlmForImages`, `getMimeType` and `toBase64` in the main.ts listing
embedded in src/README.md (the variant exercised by
`tests/parse-recipe-images.test.ts` and `tests/llm-utils.test.ts`).
Every match is resolved in original source order (fail-fast); ONE
combined request is sent — a user message whose parts are the shared
instruction text followed, per image, by a labeled text part
`Image <n>: <label>` and an `image_url` part, then the system message
with the trimmed prompt; the trimmed response plus a blank line is
inserted once before the lowest-offset match. -/

namespace Combined

/-- One element of a multi-part user message content:
`ImageTextPart` (`{type: "text"}`) or `ImageUrlPart`
(`{type: "image_url"}`). -/
inductive ContentPart where
  | text (t : Str)
  | imageUrl (url : Str)
  deriving DecidableEq, Repr

/-- A chat message role. -/
inductive Role where
  | system
  | user
  deriving DecidableEq, Repr

/-- Content of a `ChatMessage`: a plain string or ordered content parts. -/
inductive MsgContent where
  | str (s : Str)
  | parts (ps : List ContentPart)
  deriving DecidableEq, Repr

/-- A `ChatMessage`. -/
structure ChatMessage where
  role : Role
  content : MsgContent
  deriving DecidableEq, Repr

/-- One resolved image, `{file, label}`, as pushed by the resolution
loop of `extractRecipeInformationFromActiveFile`. -/
structure ResolvedImage where
  file : RecipePlugin.VFile
  label : Str
  deriving DecidableEq, Repr

/-- `getMimeType` (src/README.md listing): fixed table over the
lowercased file extension. -/
def getMimeType (ext : Str) : Str :=
  let e := ext.map Char.toLower
  if e = "jpg".toList || e = "jpeg".toList then "image/jpeg".toList
  else if e = "png".toList then "image/png".toList
  else if e = "webp".toList then "image/webp".toList
  else if e = "gif".toList then "image/gif".toList
  else if e = "bmp".toList then "image/bmp".toList
  else "application/octet-stream".toList

/-- The base64 alphabet. -/
def base64Digit (n : Nat) : Char :=
  ("ABCDEFGHIJKLMNOPQRSTUVWXYZabcdefghijklmnopqrstuvwxyz0123456789+/".toList).getD n 'A'

/-- `toBase64` (src/README.md listing): standard base64 of the byte
buffer.  The source's chunked `String.fromCharCode` conversion only works
around engine argument limits; its output is the standard encoding of
the byte sequence. -/
def toBase64 : List Nat → Str
  | [] => []
  | [b1] => [base64Digit (b1 / 4), base64Digit (b1 % 4 * 16), '=', '=']
  | [b1, b2] => [base64Digit (b1 / 4), base64Digit (b1 % 4 * 16 + b2 / 16),
      base64Digit (b2 % 16 * 4), '=']
  | b1 :: b2 :: b3 :: rest =>
      base64Digit (b1 / 4) :: base64Digit (b1 % 4 * 16 + b2 / 16) ::
      base64Digit (b2 % 16 * 4 + b3 / 64) :: base64Digit (b3 % 64) ::
      toBase64 rest

/-- The `data:<mime>;base64,<data>` URL built for one image file, with
the vault binary read (`vault.readBinary`) passed in as a collaborator. -/
def dataUrlOf (readBinary : RecipePlugin.VFile → List Nat)
    (f : RecipePlugin.VFile) : Str :=
  "data:".toList ++ getMimeType f.extension ++ (";base64,".toList ++
    toBase64 (readBinary f))

/-- The shared instruction text part of the combined user message. -/
def instructionText : Str :=
  "Extract information from all images. Return a combined response.".toList

/-- `image.label || image.file.name`: an empty label (the only falsy
string) falls back to the file name. -/
def labelOrName (img : ResolvedImage) : Str :=
  if img.label = [] then img.file.name else img.label

/-- The per-image content parts pushed by the
`for (const [index, image] of images.entries())` loop of
`callLlmForImages`: a text part `Image <index+1>: <label>` followed by
the `image_url` part. -/
def imageParts (readBinary : RecipePlugin.VFile → List Nat) :
    Nat → List ResolvedImage → List ContentPart
  | _, [] => []
  | i, img :: rest =>
    ContentPart.text ("Image ".toList ++ ((toString (i + 1)).toList ++
        (": ".toList ++ labelOrName img))) ::
      ContentPart.imageUrl (dataUrlOf readBinary img.file) ::
      imageParts readBinary (i + 1) rest

/-- The message list built by `callLlmForImages`: the user message
holding the instruction part and all image parts first, then the system
message holding the trimmed prompt. -/
def imagesMessages (readBinary : RecipePlugin.VFile → List Nat)
    (prompt : Str) (images : List ResolvedImage) : List ChatMessage :=
  [⟨.user, .parts (ContentPart.text instructionText ::
      imageParts readBinary 0 images)⟩,
    ⟨.system, .str (RecipePlugin.jsTrim prompt)⟩]

/-- The resolution loop of `extractRecipeInformationFromActiveFile`:
every match in original source order; the first unresolved match throws
`Attachment not found: <path>` and aborts the operation. -/
def resolveImages (resolver : Str → Option RecipePlugin.VFile) :
    List RecipePlugin.ImageLinkMatch → Except Str (List ResolvedImage)
  | [] => .ok []
  | m :: rest =>
    match resolver m.linkPath with
    | none => .error ("Attachment not found: ".toList ++ m.linkPath)
    | some f =>
      match resolveImages resolver rest with
      | .error e => .error e
      | .ok tail => .ok (⟨f, m.linkPath⟩ :: tail)

/-- Stable insertion into a list sorted by ascending `start`
(`[...matches].sort((a, b) => a.start - b.start)`). -/
def insertByStartAsc (m : RecipePlugin.ImageLinkMatch) :
    List RecipePlugin.ImageLinkMatch → List RecipePlugin.ImageLinkMatch
  | [] => [m]
  | x :: xs => if m.start ≤ x.start then m :: x :: xs else x :: insertByStartAsc m xs

/-- Stable sort by ascending `start`. -/
def sortByStartAsc : List RecipePlugin.ImageLinkMatch → List RecipePlugin.ImageLinkMatch
  | [] => []
  | m :: ms => insertByStartAsc m (sortByStartAsc ms)

/-- Observable outcome of the combined workflow: the notice shown, the
content written via `vault.modify` (if any), and every message list the
LLM was called with. -/
structure Outcome where
  notice : Str
  wrote : Option Str
  requests : List (List ChatMessage)
  deriving DecidableEq, Repr

/-- `extractRecipeInformationFromActiveFile` (src/README.md listing) for
an open markdown file with the given content: scan for image links;
resolve every match in source order (fail-fast); call `callLlmForImages`
once — trimmed-prompt check, then the single combined two-message
request; on a non-blank response insert the trimmed text followed by a
blank line before `[...matches].sort((a, b) => a.start - b.start)[0]`;
persist only if the content changed. -/
def extractWorkflow (resolver : Str → Option RecipePlugin.VFile)
    (readBinary : RecipePlugin.VFile → List Nat)
    (llm : List ChatMessage → Except Str Str) (prompt : Str) (content : Str) :
    Outcome :=
  let found := RecipePlugin.findImageLinks content
  if found.isEmpty then
    ⟨"No image attachments found in this file.".toList, none, []⟩
  else
    match resolveImages resolver found with
    | .error msg => ⟨msg, none, []⟩
    | .ok images =>
      if RecipePlugin.jsTrim prompt = [] then
        ⟨"Ingredients prompt is empty".toList, none, []⟩
      else
        let msgs := imagesMessages readBinary prompt images
        match llm msgs with
        | .error msg => ⟨msg, none, [msgs]⟩
        | .ok r =>
          if RecipePlugin.jsTrim r = [] then
            ⟨"LLM returned empty response for images".toList, none, [msgs]⟩
          else
            let e := ((sortByStartAsc found).headD ⟨[], 0⟩).start
            let updated := content.take e ++
              (RecipePlugin.jsTrim r ++ ('\n' :: '\n' :: content.drop e))
            ⟨"Recipe information extracted and inserted for detected images.".toList,
              if updated ≠ content then some updated else none, [msgs]⟩

end Combined

/-! ## Helper lemmas -/

theorem firstIdxAux_eq_some {p : Nat → Bool} :
    ∀ {fuel i j : Nat}, firstIdxAux p i fuel = some j →
      i ≤ j ∧ j < i + fuel ∧ p j = true ∧ ∀ r, i ≤ r → r < j → p r = false := by
  intro fuel
  induction fuel with
  | zero => intro i j h; simp [firstIdxAux] at h
  | succ n ih =>
    intro i j h
    unfold firstIdxAux at h
    by_cases hp : p i = true
    · rw [if_pos hp] at h
      obtain rfl : i = j := by simpa using h
      exact ⟨le_refl _, by omega, hp, fun r h1 h2 => absurd h1 (by omega)⟩
    · rw [if_neg hp] at h
      obtain ⟨h1, h2, h3, h4⟩ := ih h
      refine ⟨by omega, by omega, h3, fun r hr1 hr2 => ?_⟩
      rcases Nat.eq_or_lt_of_le hr1 with rfl | hlt
      · exact eq_false_of_ne_true hp
      · exact h4 r hlt hr2

theorem firstIdxAux_eq_none {p : Nat → Bool} :
    ∀ {fuel i : Nat}, firstIdxAux p i fuel = none →
      ∀ j, i ≤ j → j < i + fuel → p j = false := by
  intro fuel
  induction fuel with
  | zero => intro i _ j h1 h2; omega
  | succ n ih =>
    intro i h j h1 h2
    unfold firstIdxAux at h
    by_cases hp : p i = true
    · rw [if_pos hp] at h; exact absurd h (by simp)
    · rw [if_neg hp] at h
      rcases Nat.eq_or_lt_of_le h1 with rfl | hlt
      · exact eq_false_of_ne_true hp
      · exact ih h j hlt (by omega)

theorem firstIdx_eq_some {p : Nat → Bool} {i n j : Nat} (h : firstIdx p i n = some j) :
    i ≤ j ∧ j < n ∧ p j = true ∧ ∀ r, i ≤ r → r < j → p r = false := by
  obtain ⟨h1, h2, h3, h4⟩ := firstIdxAux_eq_some h
  exact ⟨h1, by omega, h3, h4⟩

theorem firstIdx_eq_none {p : Nat → Bool} {i n : Nat} (h : firstIdx p i n = none) :
    ∀ j, i ≤ j → j < n → p j = false := by
  intro j h1 h2
  exact firstIdxAux_eq_none h j h1 (by omega)

theorem firstIdx_isSome {p : Nat → Bool} {i n j : Nat}
    (h1 : i ≤ j) (h2 : j < n) (hp : p j = true) : (firstIdx p i n).isSome := by
  cases h : firstIdx p i n with
  | some k => simp
  | none => exact absurd (firstIdx_eq_none h j h1 h2) (by simp [hp])

theorem scanAux_start_ge {tryFn : List Char → Option (List Char × Nat)} :
    ∀ {fuel : Nat} {s : List Char} {pos : Nat} {m : ImageLinkMatch},
      m ∈ scanAux tryFn fuel s pos → pos ≤ m.start := by
  intro fuel
  induction fuel with
  | zero => intro s pos m hm; simp [scanAux] at hm
  | succ n ih =>
    intro s pos m hm
    cases s with
    | nil => simp [scanAux] at hm
    | cons c rest =>
      unfold scanAux at hm
      split at hm
      · rcases List.mem_cons.mp hm with rfl | hmem
        · exact le_refl _
        · have := ih hmem; omega
      · have := ih hm; omega

theorem scanAux_pairwise_lt {tryFn : List Char → Option (List Char × Nat)} :
    ∀ {fuel : Nat} {s : List Char} {pos : Nat},
      List.Pairwise (fun a b => a.start < b.start) (scanAux tryFn fuel s pos) := by
  intro fuel
  induction fuel with
  | zero => intro s pos; simp [scanAux]
  | succ n ih =>
    intro s pos
    cases s with
    | nil => simp [scanAux]
    | cons c rest =>
      unfold scanAux
      split
      · exact List.Pairwise.cons (fun b hb => by have := scanAux_start_ge hb; simp; omega) ih
      · exact ih

theorem scanMatches_pairwise_lt (tryFn : List Char → Option (List Char × Nat)) (s : Str) :
    List.Pairwise (fun a b => a.start < b.start) (scanMatches tryFn s) :=
  scanAux_pairwise_lt

/-! Heads required by the three strip matchers. -/

theorem wikiStripTry_head {l : List Char} (h : wikiStripTry l ≠ none) :
    l.headD ' ' = '!' := by
  unfold wikiStripTry at h
  split at h
  · rfl
  · exact absurd rfl h

theorem mdStripTry_head {l : List Char} (h : mdStripTry l ≠ none) :
    l.headD ' ' = '!' := by
  unfold mdStripTry at h
  split at h
  · rfl
  · exact absurd rfl h

theorem imgStripTry_head {l : List Char} (h : imgStripTry l ≠ none) :
    l.headD ' ' = '<' := by
  unfold imgStripTry at h
  split at h
  · rfl
  · exact absurd rfl h

/-- A global replace leaves a string unchanged when its matcher can never
fire on any suffix head. -/
theorem replAllAux_eq_self {tryFn : List Char → Option Nat}
    (hhead : ∀ l : List Char, tryFn l ≠ none → l.headD ' ' = '!' ∨ l.headD ' ' = '<') :
    ∀ {fuel : Nat} {s : List Char},
      (∀ c ∈ s, c ≠ '!' ∧ c ≠ '<') → replAllAux tryFn fuel s = s := by
  intro fuel
  induction fuel with
  | zero => intro s _; rfl
  | succ n ih =>
    intro s hs
    cases s with
    | nil => rfl
    | cons c rest =>
      have hc := hs c (List.mem_cons_self c rest)
      have htry : tryFn (c :: rest) = none := by
        by_contra hne
        rcases hhead _ hne with h | h <;> simp at h <;> simp [h] at hc
      unfold replAllAux
      rw [htry]
      exact congrArg (c :: ·) (ih fun x hx => hs x (List.mem_cons_of_mem c hx))

theorem stripImageEmbeds_eq_self {s : Str} (hs : ∀ c ∈ s, c ≠ '!' ∧ c ≠ '<') :
    stripImageEmbeds s = s := by
  have h1 : replAll wikiStripTry s = s :=
    replAllAux_eq_self (fun l h => Or.inl (wikiStripTry_head h)) hs
  have h2 : replAll mdStripTry s = s :=
    replAllAux_eq_self (fun l h => Or.inl (mdStripTry_head h)) hs
  have h3 : replAll imgStripTry s = s :=
    replAllAux_eq_self (fun l h => Or.inr (imgStripTry_head h)) hs
  show replAll imgStripTry (replAll mdStripTry (replAll wikiStripTry s)) = s
  rw [h1, h2, h3]

/-! ## Claim C3: idempotence of `stripImageEmbeds` -/

/-- C3 (counterexample): `stripImageEmbeds` is NOT idempotent.  On the
content `"!![a](b)[[x]]"` one pass removes the markdown embed `![a](b)`,
which glues the leading `!` onto `[[x]]` and creates the wiki embed
`![[x]]`; a second pass removes it too. -/
theorem stripImageEmbeds_not_idempotent :
    stripImageEmbeds (stripImageEmbeds ("!![a](b)[[x]]".toList)) ≠
      stripImageEmbeds ("!![a](b)[[x]]".toList) := by
  decide

/-- C3 (amended): `stripImageEmbeds` is idempotent on every content string
whose single-pass output contains no `'!'` and no `'<'` character (every
embed dialect it removes starts with one of these two characters, so such
an output is a fixed point). -/
theorem stripImageEmbeds_idempotent_of_clean (s : Str)
    (h : ∀ c ∈ stripImageEmbeds s, c ≠ '!' ∧ c ≠ '<') :
    stripImageEmbeds (stripImageEmbeds s) = stripImageEmbeds s :=
  stripImageEmbeds_eq_self h

/-- C3 witness: a concrete run of the amended idempotence theorem. -/
theorem stripImageEmbeds_idempotent_of_clean_witness :
    stripImageEmbeds (stripImageEmbeds ("a ![[b]] c".toList)) =
      stripImageEmbeds ("a ![[b]] c".toList) :=
  stripImageEmbeds_idempotent_of_clean ("a ![[b]] c".toList) (by decide)

/-! ## Claim C9: the `Authorization` header of `callLlm` -/

/-- C9: the headers built by `callLlm` contain an `Authorization` entry iff
the configured API key is non-blank after trimming, and any such entry has
the value `"Bearer " ++ trimmed key`; a blank key yields no
`Authorization` header. -/
theorem buildHeaders_authorization (apiKey : String) :
    ((∃ v, ("Authorization", v) ∈ buildHeaders apiKey) ↔ jsTrimS apiKey ≠ "") ∧
    ∀ v, ("Authorization", v) ∈ buildHeaders apiKey → v = "Bearer " ++ jsTrimS apiKey := by
  unfold buildHeaders
  by_cases h : jsTrimS apiKey = ""
  · rw [if_neg (by simp [h])]
    refine ⟨⟨fun hex => ?_, fun hne => absurd h hne⟩, fun v hv => ?_⟩
    · obtain ⟨v, hv⟩ := hex
      rw [List.mem_singleton] at hv
      exact absurd (show "Authorization" = "Content-Type" from congrArg Prod.fst hv) (by decide)
    · rw [List.mem_singleton] at hv
      exact absurd (show "Authorization" = "Content-Type" from congrArg Prod.fst hv) (by decide)
  · rw [if_pos h]
    refine ⟨⟨fun _ => h, fun _ => ⟨"Bearer " ++ jsTrimS apiKey, by simp⟩⟩, fun v hv => ?_⟩
    rcases List.mem_append.mp hv with hv | hv
    · rw [List.mem_singleton] at hv
      exact absurd (show "Authorization" = "Content-Type" from congrArg Prod.fst hv) (by decide)
    · rw [List.mem_singleton] at hv
      exact congrArg Prod.snd hv

/-- C9 witness: the key `"  secret-key  "` produces
`Authorization: Bearer secret-key`; a whitespace-only key produces no
`Authorization` header. -/
theorem buildHeaders_authorization_witness :
    (∃ v, ("Authorization", v) ∈ buildHeaders "  secret-key  " ∧ v = "Bearer secret-key") ∧
    ¬(∃ v, ("Authorization", v) ∈ buildHeaders "   ") := by
  constructor
  · obtain ⟨v, hv⟩ := (buildHeaders_authorization "  secret-key  ").1.mpr (by decide)
    refine ⟨v, hv, ?_⟩
    rw [(buildHeaders_authorization "  secret-key  ").2 v hv]
    decide
  · intro hex
    exact (by decide : ¬(jsTrimS "   " ≠ "")) ((buildHeaders_authorization "   ").1.mp hex)

/-! ## Claim C10: order of the `findImageLinks` result -/

/-- C10 (counterexample): the claim asserts that whenever both dialects
occur, the returned list is not globally sorted by start offset; but on
`"![[a]] ![b](c)"` both dialects occur and the returned list IS sorted by
start offset. -/
theorem findImageLinks_claim_counterexample :
    scanMatches wikiImageTry ("![[a]] ![b](c)".toList) ≠ [] ∧
    scanMatches mdImageTry ("![[a]] ![b](c)".toList) ≠ [] ∧
    List.Pairwise (fun a b => a.start ≤ b.start)
      (findImageLinks ("![[a]] ![b](c)".toList)) := by
  refine ⟨by decide, by decide, ?_⟩
  have : findImageLinks ("![[a]] ![b](c)".toList) =
      [⟨"a".toList, 0⟩, ⟨"c".toList, 7⟩] := by decide
  rw [this]
  decide

/-- C10 (amended): the result of `findImageLinks` is all wiki-embed matches
in strictly ascending position order followed by all markdown-embed
matches in strictly ascending position order; the concatenation is not
guaranteed to be globally sorted — there exist contents with both dialects
where it is not (e.g. a markdown embed before a wiki embed). -/
theorem findImageLinks_order (content : Str) :
    findImageLinks content =
      scanMatches wikiImageTry content ++ scanMatches mdImageTry content ∧
    List.Pairwise (fun a b => a.start < b.start) (scanMatches wikiImageTry content) ∧
    List.Pairwise (fun a b => a.start < b.start) (scanMatches mdImageTry content) ∧
    ∃ s : Str, scanMatches wikiImageTry s ≠ [] ∧ scanMatches mdImageTry s ≠ [] ∧
      ¬List.Pairwise (fun a b => a.start ≤ b.start) (findImageLinks s) := by
  refine ⟨rfl, scanMatches_pairwise_lt _ _, scanMatches_pairwise_lt _ _,
    "![b](c) ![[a]]".toList, by decide, by decide, ?_⟩
  have : findImageLinks ("![b](c) ![[a]]".toList) =
      [⟨"a".toList, 8⟩, ⟨"c".toList, 0⟩] := by decide
  rw [this]
  decide

/-- C10 witness: the ordering theorem instantiated on a concrete mixed
document. -/
theorem findImageLinks_order_witness :
    findImageLinks ("A ![[one.png]] B ![alt](two.jpg)".toList) =
      scanMatches wikiImageTry ("A ![[one.png]] B ![alt](two.jpg)".toList) ++
        scanMatches mdImageTry ("A ![[one.png]] B ![alt](two.jpg)".toList) ∧
    List.Pairwise (fun a b => a.start < b.start)
      (scanMatches wikiImageTry ("A ![[one.png]] B ![alt](two.jpg)".toList)) ∧
    List.Pairwise (fun a b => a.start < b.start)
      (scanMatches mdImageTry ("A ![[one.png]] B ![alt](two.jpg)".toList)) ∧
    ∃ s : Str, scanMatches wikiImageTry s ≠ [] ∧ scanMatches mdImageTry s ≠ [] ∧
      ¬List.Pairwise (fun a b => a.start ≤ b.start) (findImageLinks s) :=
  findImageLinks_order ("A ![[one.png]] B ![alt](two.jpg)".toList)

/-! ## Claim C4: the shopping-list response gate -/

/-- Formalisation of the claim's wording: the trimmed response starts with
a heading line (one to six `#` followed by whitespace) that contains the
phrase `Need to buy` case-insensitively. -/
def respStartsWithNeedToBuyHeadingLine (r : Str) : Bool :=
  let t := jsTrim r
  let line := t.takeWhile (fun c => c != '\n')
  let k := hashRun t 0
  1 ≤ k && k ≤ 6 && decide (k < line.length) && jsWhitespace (t.getD k ' ') &&
    (List.range line.length).any (fun i => phraseAtCI line i needToBuyPhrase)

/-- C4 (counterexample): the response `"## Need to buy\n- [ ] x"` starts,
after trimming, with a heading line containing `Need to buy`, yet the code
gate `/^#\s*Need to buy/i` rejects it (it requires exactly one `#`), so
the workflow shows the `did not include` notice instead of proceeding. -/
theorem shoppingGate_claim_counterexample :
    respStartsWithNeedToBuyHeadingLine ("## Need to buy\n- [ ] x".toList) = true ∧
    locateNeedToBuy ("# Need to buy\n- [ ] item\n".toList) = some ⟨0, 1, 25⟩ ∧
    shoppingListAfterLlm ("# Need to buy\n- [ ] item\n".toList) ⟨0, 1, 25⟩
        ("## Need to buy\n- [ ] x".toList) =
      .notice "LLM response did not include a \x27# Need to buy\x27 section." := by
  refine ⟨by decide, by decide, ?_⟩
  decide

/-- C4 (amended): the gate accepts exactly the responses whose trimmed
text starts with a single `#`, optional whitespace, then `Need to buy`
(case-insensitive); when the gate rejects, the workflow shows the
`did not include` notice and writes nothing, and when it accepts, the
section replacement proceeds. -/
theorem shoppingListAfterLlm_gate (s : Str) (span : SectionSpan) (r : Str) :
    (needToBuyGate r = false →
      shoppingListAfterLlm s span r =
        .notice "LLM response did not include a \x27# Need to buy\x27 section.") ∧
    (needToBuyGate r = true →
      shoppingListAfterLlm s span r = .write (buildShoppingUpdate s span r)) ∧
    (needToBuyGate r = true ↔
      (jsTrim r).headD ' ' = '#' ∧
        phraseAtCI (jsTrim r) (1 + wsRun (jsTrim r) 1) needToBuyPhrase = true) := by
  refine ⟨fun h => ?_, fun h => ?_, ?_⟩
  · unfold shoppingListAfterLlm
    rw [if_neg (by simp [h])]
  · unfold shoppingListAfterLlm
    rw [if_pos (by simp [h])]
  · unfold needToBuyGate
    constructor
    · intro h
      exact ⟨by simpa using (Bool.and_eq_true_iff.mp h).1,
        (Bool.and_eq_true_iff.mp h).2⟩
    · intro ⟨h1, h2⟩
      exact Bool.and_eq_true_iff.mpr ⟨by simpa using h1, h2⟩

/-- C4 witness: a concrete accepted response and a concrete rejected
response, produced by applying the gate theorem. -/
theorem shoppingListAfterLlm_gate_witness :
    shoppingListAfterLlm ("# Need to buy\n- i\n".toList) ⟨0, 1, 18⟩
        ("No header here".toList) =
      .notice "LLM response did not include a \x27# Need to buy\x27 section." ∧
    shoppingListAfterLlm ("# Need to buy\n- i\n".toList) ⟨0, 1, 18⟩
        ("# Need to buy\n- [ ] apples".toList) =
      .write (buildShoppingUpdate ("# Need to buy\n- i\n".toList) ⟨0, 1, 18⟩
        ("# Need to buy\n- [ ] apples".toList)) :=
  ⟨(shoppingListAfterLlm_gate ("# Need to buy\n- i\n".toList) ⟨0, 1, 18⟩
      ("No header here".toList)).1 (by decide),
    (shoppingListAfterLlm_gate ("# Need to buy\n- i\n".toList) ⟨0, 1, 18⟩
      ("# Need to buy\n- [ ] apples".toList)).2.1 (by decide)⟩

/-! ## Claim C7: `resolveImageFile` -/

/-- C7: `resolveImageFile` returns `null` without any lookup when the
trimmed target is empty, an `http(s)` URL (case-insensitive) or a `data:`
URL; otherwise it performs exactly one lookup on the target cleaned by
removing everything from the first `|` onward and then everything from the
first `#` onward ("photo.png#Section|alias" cleans to "photo.png"); a
lookup result that is not a `TFile` yields `null`. -/
theorem resolveImageFile_contract (lookup : Str → Option LookupDest) (p : Str) :
    (jsTrim p = [] ∨ isHttpUrl (jsTrim p) = true ∨ isDataUrl (jsTrim p) = true →
      resolveImageFile lookup p = (none, [])) ∧
    (jsTrim p ≠ [] → isHttpUrl (jsTrim p) = false → isDataUrl (jsTrim p) = false →
      (resolveImageFile lookup p).2 = [cleanedTarget (jsTrim p)] ∧
      (lookup (cleanedTarget (jsTrim p)) = some LookupDest.notFile ∨
          lookup (cleanedTarget (jsTrim p)) = none →
        (resolveImageFile lookup p).1 = none) ∧
      (∀ f, lookup (cleanedTarget (jsTrim p)) = some (LookupDest.file f) →
        (resolveImageFile lookup p).1 = some f)) ∧
    cleanedTarget ("photo.png#Section|alias".toList) = "photo.png".toList := by
  refine ⟨fun h => ?_, fun h1 h2 h3 => ?_, by decide⟩
  · unfold resolveImageFile
    rw [if_pos]
    rcases h with h | h | h <;> simp [h]
  · unfold resolveImageFile
    rw [if_neg (by simp [h1, h2, h3])]
    refine ⟨?_, fun h => ?_, fun f h => ?_⟩
    · cases h : lookup (cleanedTarget (jsTrim p)) with
      | none => simp [h]
      | some d => cases d <;> simp [h]
    · rcases h with h | h <;> simp [h]
    · simp [h]

/-- C7 witness: concrete rejections and a concrete resolution through a
concrete lookup. -/
theorem resolveImageFile_contract_witness :
    resolveImageFile (fun _ => some (.file ⟨"a".toList, "a".toList, "png".toList⟩))
        ("https://example.com/image.png".toList) = (none, []) ∧
    resolveImageFile (fun _ => some (.file ⟨"a".toList, "a".toList, "png".toList⟩)) ("   ".toList) =
      (none, []) ∧
    (resolveImageFile (fun _ => some (.file ⟨"a".toList, "a".toList, "png".toList⟩))
        ("photo.png#Section|alias".toList)).2 = [cleanedTarget ("photo.png".toList)] ∧
    (resolveImageFile (fun _ => none) ("photo.png".toList)).1 = none := by
  refine ⟨?_, ?_, ?_, ?_⟩
  · exact (resolveImageFile_contract _ _).1 (Or.inr (Or.inl (by decide)))
  · exact (resolveImageFile_contract _ _).1 (Or.inl (by decide))
  · have h := ((resolveImageFile_contract
      (fun _ => some (.file ⟨"a".toList, "a".toList, "png".toList⟩))
      ("photo.png#Section|alias".toList)).2.1 (by decide) (by decide) (by decide)).1
    rw [h]
    decide
  · exact ((resolveImageFile_contract (fun _ => none) ("photo.png".toList)).2.1
      (by decide) (by decide) (by decide)).2.1 (Or.inr rfl)

/-! ## Claim C8: the response handling of `callLlm` -/

/-- C8: once the endpoint and model checks pass, `callLlm` fails with a
message containing the status code whenever the HTTP status is not 200;
on status 200 it fails with `Unexpected LLM response shape` unless
`choices[0].message.content` of the parsed JSON is a string, and otherwise
returns that string exactly as received (not trimmed). -/
theorem callLlm_response_contract (endpoint model : String) (response : LlmResponse)
    (hE : jsTrimS endpoint ≠ "") (hM : jsTrimS model ≠ "") :
    (response.status ≠ 200 →
      ∃ pre post, callLlm endpoint model response =
        .error (pre ++ toString response.status ++ post)) ∧
    (response.status = 200 →
      (∀ s, choicesContent response.json = some (.str s) →
        callLlm endpoint model response = .ok s) ∧
      ((∀ s, choicesContent response.json ≠ some (.str s)) →
        callLlm endpoint model response = .error "Unexpected LLM response shape")) := by
  unfold callLlm
  rw [if_neg hE, if_neg hM]
  constructor
  · intro h
    exact ⟨"LLM request failed (", ")", by rw [if_pos h]⟩
  · intro h200
    rw [if_neg (by simp [h200])]
    constructor
    · intro s hs
      rw [hs]
    · intro hnot
      cases hc : choicesContent response.json with
      | none => rfl
      | some j =>
        cases j with
        | str s => exact absurd hc (hnot s)
        | null => rfl
        | num n => rfl
        | bool b => rfl
        | arr elems => rfl
        | obj fields => rfl

/-- C8 witness: a 500 response fails with a message containing `500`; a
200 response with string content returns it untrimmed. -/
theorem callLlm_response_contract_witness :
    (∃ pre post, callLlm "https://e" "m" ⟨500, none⟩ =
      .error (pre ++ toString (500 : Nat) ++ post)) ∧
    callLlm "https://e" "m"
        ⟨200, some (.obj [("choices",
          .arr [.obj [("message", .obj [("content", .str "  ok  ")])]])])⟩ =
      .ok "  ok  " := by
  constructor
  · exact (callLlm_response_contract "https://e" "m" ⟨500, none⟩
      (by decide) (by decide)).1 (by decide)
  · exact ((callLlm_response_contract "https://e" "m" _
      (by decide) (by decide)).2 rfl).1 "  ok  " rfl

/-! ## Claims C1 and C6: the section locator and the replacement frame -/

theorem take_append_of_length {A B : List Char} {n : Nat} (h : A.length = n) :
    (A ++ B).take n = A := by
  subst h; exact List.take_left A B

theorem locateNeedToBuy_start_lt {s : Str} {span : SectionSpan}
    (h : locateNeedToBuy s = some span) : span.start < s.length := by
  unfold locateNeedToBuy at h
  split at h
  · simp at h
  next i hf =>
    split at h
    · simp at h
    next lvl after hh =>
      have hspan := Option.some.inj h
      subst hspan
      exact (firstIdx_eq_some hf).2.1

/-- C1: for every document in which the `Need to buy` section is located,
the updated document is exactly the original characters before
`span.start`, then the trimmed replacement and the separator, then the
original characters from `span.endIdx` on; in particular the prefix before
`span.start` and the suffix from `span.endIdx` are unchanged. -/
theorem buildShoppingUpdate_frame (s llmResult : Str) (span : SectionSpan)
    (h : locateNeedToBuy s = some span) :
    buildShoppingUpdate s span llmResult =
      s.take span.start ++ jsTrim llmResult ++ sectionSeparator s span.endIdx ++
        s.drop span.endIdx ∧
    (buildShoppingUpdate s span llmResult).take span.start = s.take span.start ∧
    (buildShoppingUpdate s span llmResult).drop
        (span.start + ((jsTrim llmResult).length +
          (sectionSeparator s span.endIdx).length)) =
      s.drop span.endIdx := by
  have hlt : span.start < s.length := locateNeedToBuy_start_lt h
  have hlen : (s.take span.start).length = span.start := by
    rw [List.length_take]; omega
  refine ⟨rfl, ?_, ?_⟩
  · unfold buildShoppingUpdate
    rw [List.append_assoc, List.append_assoc]
    exact take_append_of_length hlen
  · unfold buildShoppingUpdate
    apply List.drop_left'
    simp only [List.length_append, hlen]
    omega

/-- C1 witness: a concrete located span and replacement, with both frame
equalities evaluated. -/
theorem buildShoppingUpdate_frame_witness :
    locateNeedToBuy ("x\n# Need to buy\n- a\n# T x".toList) = some ⟨2, 1, 20⟩ ∧
    (buildShoppingUpdate ("x\n# Need to buy\n- a\n# T x".toList) ⟨2, 1, 20⟩
        (" # Need to buy\n- [ ] apples ".toList)).take 2 =
      ("x\n# Need to buy\n- a\n# T x".toList).take 2 ∧
    (buildShoppingUpdate ("x\n# Need to buy\n- a\n# T x".toList) ⟨2, 1, 20⟩
        (" # Need to buy\n- [ ] apples ".toList)).drop
        (2 + ((jsTrim (" # Need to buy\n- [ ] apples ".toList)).length +
          (sectionSeparator ("x\n# Need to buy\n- a\n# T x".toList) 20).length)) =
      ("x\n# Need to buy\n- a\n# T x".toList).drop 20 :=
  ⟨by decide,
    (buildShoppingUpdate_frame ("x\n# Need to buy\n- a\n# T x".toList)
      (" # Need to buy\n- [ ] apples ".toList) ⟨2, 1, 20⟩ (by decide)).2.1,
    (buildShoppingUpdate_frame ("x\n# Need to buy\n- a\n# T x".toList)
      (" # Need to buy\n- [ ] apples ".toList) ⟨2, 1, 20⟩ (by decide)).2.2⟩

theorem needToBuyHeaderAt_level {s : Str} {i lvl after : Nat}
    (h : needToBuyHeaderAt s i = some (lvl, after)) : lvl = hashRun s i := by
  simp only [needToBuyHeaderAt] at h
  split at h
  · split at h
    · exact ((Prod.mk.injEq _ _ _ _).mp (Option.some.inj h)).1.symm
    · simp at h
  · simp at h

/-- C6: whenever the document contains a line matching the `Need to buy`
heading regex, the located span starts at the first such line, records the
count of leading `#` as its level, and ends at the start of the first
later line matching `^#{1,6}\s+` whose level is at most the recorded
level — lines of strictly greater depth never terminate it — or at the
document length when no such line exists. -/
theorem locateNeedToBuy_spec (s : Str)
    (h : ∃ i, i < s.length ∧ needToBuyHeadingStart s i = true) :
    ∃ span lvl afterHeader,
      locateNeedToBuy s = some span ∧
      needToBuyHeadingStart s span.start = true ∧
      (∀ i, i < span.start → needToBuyHeadingStart s i = false) ∧
      needToBuyHeaderAt s span.start = some (lvl, afterHeader) ∧
      span.level = lvl ∧
      lvl = hashRun s span.start ∧
      ((span.endIdx = s.length ∧
          ∀ j, afterHeader < j → j < s.length → sectionTerminator s lvl j = false) ∨
        (span.endIdx < s.length ∧ afterHeader < span.endIdx ∧
          sectionTerminator s lvl span.endIdx = true ∧
          ∀ j, afterHeader < j → j < span.endIdx →
            sectionTerminator s lvl j = false)) := by
  obtain ⟨i0, hi0, hp0⟩ := h
  have hsome : (firstIdx (fun i => needToBuyHeadingStart s i) 0 s.length).isSome :=
    firstIdx_isSome (Nat.zero_le _) hi0 hp0
  obtain ⟨i, hf⟩ := Option.isSome_iff_exists.mp hsome
  obtain ⟨-, hilt, hpi, hmin⟩ := firstIdx_eq_some hf
  have hhs : (needToBuyHeaderAt s i).isSome := by
    unfold needToBuyHeadingStart at hpi
    exact (Bool.and_eq_true_iff.mp hpi).2
  obtain ⟨⟨lvl, after⟩, hh⟩ := Option.isSome_iff_exists.mp hhs
  have hloc : locateNeedToBuy s =
      some ⟨i, lvl,
        (firstIdx (fun j => sectionTerminator s lvl j) (after + 1) s.length).getD
          s.length⟩ := by
    simp only [locateNeedToBuy, hf, hh]
  cases he : firstIdx (fun j => sectionTerminator s lvl j) (after + 1) s.length with
  | some j =>
    rw [he] at hloc
    obtain ⟨hj1, hj2, hj3, hj4⟩ := firstIdx_eq_some he
    exact ⟨⟨i, lvl, j⟩, lvl, after, hloc, hpi,
      fun r hr => hmin r (Nat.zero_le _) hr, hh, rfl, needToBuyHeaderAt_level hh,
      Or.inr ⟨hj2, show after < j by omega, hj3, fun r ha hb => hj4 r (by omega) hb⟩⟩
  | none =>
    rw [he] at hloc
    exact ⟨⟨i, lvl, s.length⟩, lvl, after, hloc, hpi,
      fun r hr => hmin r (Nat.zero_le _) hr, hh, rfl, needToBuyHeaderAt_level hh,
      Or.inl ⟨rfl, fun j ha hb => firstIdx_eq_none he j (by omega) hb⟩⟩

/-- C6 witness: the full span characterisation evaluated on a concrete
document with a nested deeper heading that does not terminate the span. -/
theorem locateNeedToBuy_spec_witness :
    ∃ span lvl afterHeader,
      locateNeedToBuy ("## Need to buy\nstuff\n### sub\nmore\r## Next\nx".toList) =
        some span ∧
      needToBuyHeadingStart ("## Need to buy\nstuff\n### sub\nmore\r## Next\nx".toList)
        span.start = true ∧
      (∀ i, i < span.start →
        needToBuyHeadingStart ("## Need to buy\nstuff\n### sub\nmore\r## Next\nx".toList)
          i = false) ∧
      needToBuyHeaderAt ("## Need to buy\nstuff\n### sub\nmore\r## Next\nx".toList)
        span.start = some (lvl, afterHeader) ∧
      span.level = lvl ∧
      lvl = hashRun ("## Need to buy\nstuff\n### sub\nmore\r## Next\nx".toList) span.start ∧
      ((span.endIdx = ("## Need to buy\nstuff\n### sub\nmore\r## Next\nx".toList).length ∧
          ∀ j, afterHeader < j →
            j < ("## Need to buy\nstuff\n### sub\nmore\r## Next\nx".toList).length →
            sectionTerminator ("## Need to buy\nstuff\n### sub\nmore\r## Next\nx".toList)
              lvl j = false) ∨
        (span.endIdx < ("## Need to buy\nstuff\n### sub\nmore\r## Next\nx".toList).length ∧
          afterHeader < span.endIdx ∧
          sectionTerminator ("## Need to buy\nstuff\n### sub\nmore\r## Next\nx".toList)
            lvl span.endIdx = true ∧
          ∀ j, afterHeader < j → j < span.endIdx →
            sectionTerminator ("## Need to buy\nstuff\n### sub\nmore\r## Next\nx".toList)
              lvl j = false)) :=
  locateNeedToBuy_spec ("## Need to buy\nstuff\n### sub\nmore\r## Next\nx".toList)
    ⟨0, by decide, by decide⟩

/-! ## Claim C5: fail-fast of the per-image extraction workflow -/

/-- A match fails its per-image step: unresolved attachment, a throwing
LLM call, or a blank LLM response. -/
def matchFails (resolver : Str → Option VFile) (llm : VFile → Except Str Str)
    (m : ImageLinkMatch) : Prop :=
  resolver m.linkPath = none ∨
  (∃ f e, resolver m.linkPath = some f ∧ llm f = .error e) ∨
  (∃ f r, resolver m.linkPath = some f ∧ llm f = .ok r ∧ jsTrim r = [])

theorem mem_insertByStartDesc {m x : ImageLinkMatch} :
    ∀ {l : List ImageLinkMatch}, m ∈ l → m ∈ insertByStartDesc x l := by
  intro l
  induction l with
  | nil => intro h; simp at h
  | cons y ys ih =>
    intro h
    unfold insertByStartDesc
    by_cases hc : y.start ≤ x.start
    · rw [if_pos hc]; exact List.mem_cons_of_mem x h
    · rw [if_neg hc]
      rcases List.mem_cons.mp h with rfl | h
      · exact List.mem_cons_self _ _
      · exact List.mem_cons_of_mem y (ih h)

theorem mem_self_insertByStartDesc (x : ImageLinkMatch) :
    ∀ (l : List ImageLinkMatch), x ∈ insertByStartDesc x l := by
  intro l
  induction l with
  | nil => exact List.mem_singleton.mpr rfl
  | cons y ys ih =>
    unfold insertByStartDesc
    by_cases hc : y.start ≤ x.start
    · rw [if_pos hc]; exact List.mem_cons_self _ _
    · rw [if_neg hc]; exact List.mem_cons_of_mem y ih

theorem mem_sortByStartDesc {m : ImageLinkMatch} :
    ∀ {l : List ImageLinkMatch}, m ∈ l → m ∈ sortByStartDesc l := by
  intro l
  induction l with
  | nil => intro h; simp at h
  | cons x xs ih =>
    intro h
    unfold sortByStartDesc
    rcases List.mem_cons.mp h with rfl | h
    · exact mem_self_insertByStartDesc m (sortByStartDesc xs)
    · exact mem_insertByStartDesc (ih h)

theorem extractLoop_resolve_none {resolver : Str → Option VFile}
    {llm : VFile → Except Str Str} {m : ImageLinkMatch}
    {rest : List ImageLinkMatch} {acc : Str} (hres : resolver m.linkPath = none) :
    extractLoop resolver llm (m :: rest) acc =
      .error (m.linkPath ++ (": Attachment not found: ".toList ++ m.linkPath)) := by
  conv_lhs => unfold extractLoop
  rw [hres]

theorem extractLoop_llm_error {resolver : Str → Option VFile}
    {llm : VFile → Except Str Str} {m : ImageLinkMatch} {f : VFile} {e : Str}
    {rest : List ImageLinkMatch} {acc : Str}
    (hres : resolver m.linkPath = some f) (hllm : llm f = .error e) :
    extractLoop resolver llm (m :: rest) acc =
      .error (m.linkPath ++ (": ".toList ++ e)) := by
  conv_lhs => unfold extractLoop
  rw [hres]
  dsimp only
  rw [hllm]

theorem extractLoop_llm_ok {resolver : Str → Option VFile}
    {llm : VFile → Except Str Str} {m : ImageLinkMatch} {f : VFile} {r : Str}
    {rest : List ImageLinkMatch} {acc : Str}
    (hres : resolver m.linkPath = some f) (hllm : llm f = .ok r) :
    extractLoop resolver llm (m :: rest) acc =
      if jsTrim r = [] then
        .error (m.linkPath ++ (": LLM returned empty response for: ".toList ++ f.name))
      else
        extractLoop resolver llm rest
          (acc.take m.start ++ (jsTrim r ++ ('\n' :: '\n' :: acc.drop m.start))) := by
  conv_lhs => unfold extractLoop
  rw [hres]
  dsimp only
  rw [hllm]

theorem extractLoop_error_of_fail {resolver : Str → Option VFile}
    {llm : VFile → Except Str Str} {m : ImageLinkMatch} :
    ∀ {l : List ImageLinkMatch} {acc : Str}, m ∈ l →
      matchFails resolver llm m → ∃ e, extractLoop resolver llm l acc = .error e := by
  intro l
  induction l with
  | nil => intro acc h; simp at h
  | cons x xs ih =>
    intro acc hm hfail
    rcases List.mem_cons.mp hm with rfl | hmem
    · rcases hfail with h | ⟨f, e, hf, he⟩ | ⟨f, r, hf, hr, ht⟩
      · exact ⟨_, extractLoop_resolve_none h⟩
      · exact ⟨_, extractLoop_llm_error hf he⟩
      · rw [extractLoop_llm_ok hf hr, if_pos ht]
        exact ⟨_, rfl⟩
    · cases hres : resolver x.linkPath with
      | none => exact ⟨_, extractLoop_resolve_none hres⟩
      | some f =>
        cases hllm : llm f with
        | error e => exact ⟨_, extractLoop_llm_error hres hllm⟩
        | ok r =>
          rw [extractLoop_llm_ok hres hllm]
          by_cases ht : jsTrim r = []
          · rw [if_pos ht]; exact ⟨_, rfl⟩
          · rw [if_neg ht]; exact ih hmem hfail

/-- C5: if any image match fails its per-image step (unresolved file,
throwing LLM call, or blank response), the whole extraction workflow
aborts with a single notice and never writes the note content, even if
other matches were processed successfully. -/
theorem extractRecipeWorkflow_fail_fast (resolver : Str → Option VFile)
    (llm : VFile → Except Str Str) (noteContent : Str) (m : ImageLinkMatch)
    (hm : m ∈ findImageLinks noteContent) (hfail : matchFails resolver llm m) :
    (extractRecipeWorkflow resolver llm noteContent).wrote = none ∧
    ∃ msg, extractRecipeWorkflow resolver llm noteContent = ⟨msg, none⟩ := by
  have hne : (findImageLinks noteContent).isEmpty = false := by
    cases hl : findImageLinks noteContent with
    | nil => rw [hl] at hm; simp at hm
    | cons a l => rfl
  obtain ⟨e, he⟩ :=
    @extractLoop_error_of_fail resolver llm m (sortByStartDesc (findImageLinks noteContent))
      noteContent (mem_sortByStartDesc hm) hfail
  have hout : extractRecipeWorkflow resolver llm noteContent = ⟨e, none⟩ := by
    simp only [extractRecipeWorkflow, hne, Bool.false_eq_true, if_false, he]
  exact ⟨by rw [hout], e, hout⟩

/-- C5 witness: a concrete document where the only image match fails to
resolve, so nothing is written. -/
theorem extractRecipeWorkflow_fail_fast_witness :
    (extractRecipeWorkflow (fun _ => none) (fun _ => .ok ("x".toList))
      ("Intro\n![[missing.png]]".toList)).wrote = none :=
  (extractRecipeWorkflow_fail_fast (fun _ => none) (fun _ => .ok ("x".toList))
    ("Intro\n![[missing.png]]".toList) ⟨"missing.png".toList, 6⟩
    (by decide) (Or.inl rfl)).1

/-! ## Claim C2: the combined request and single insertion -/

namespace Combined

theorem resolveImages_ok {resolver : Str → Option RecipePlugin.VFile} :
    ∀ {l : List RecipePlugin.ImageLinkMatch},
      (∀ m ∈ l, (resolver m.linkPath).isSome = true) →
      ∃ images, resolveImages resolver l = .ok images ∧
        ∀ m ∈ l, ∃ f, resolver m.linkPath = some f ∧
          ResolvedImage.mk f m.linkPath ∈ images := by
  intro l
  induction l with
  | nil => intro _; exact ⟨[], rfl, by simp⟩
  | cons x xs ih =>
    intro h
    obtain ⟨f, hf⟩ :=
      Option.isSome_iff_exists.mp (h x (List.mem_cons_self x xs))
    obtain ⟨images, hp, hmem⟩ := ih (fun m hm => h m (List.mem_cons_of_mem x hm))
    refine ⟨⟨f, x.linkPath⟩ :: images, ?_, ?_⟩
    · conv_lhs => unfold resolveImages
      rw [hf]
      dsimp only
      rw [hp]
    · intro m hm
      rcases List.mem_cons.mp hm with rfl | hm
      · exact ⟨f, hf, List.mem_cons_self _ _⟩
      · obtain ⟨g, hg, hmemg⟩ := hmem m hm
        exact ⟨g, hg, List.mem_cons_of_mem _ hmemg⟩

theorem mem_imageParts {readBinary : RecipePlugin.VFile → List Nat}
    {img : ResolvedImage} :
    ∀ {l : List ResolvedImage} (i : Nat), img ∈ l →
      ContentPart.imageUrl (dataUrlOf readBinary img.file) ∈
        imageParts readBinary i l ∧
      ∃ k : Nat, ContentPart.text ("Image ".toList ++ ((toString k).toList ++
        (": ".toList ++ labelOrName img))) ∈ imageParts readBinary i l := by
  intro l
  induction l with
  | nil => intro i h; simp at h
  | cons x xs ih =>
    intro i h
    rcases List.mem_cons.mp h with rfl | h
    · constructor
      · unfold imageParts
        exact List.mem_cons_of_mem _ (List.mem_cons_self _ _)
      · refine ⟨i + 1, ?_⟩
        unfold imageParts
        exact List.mem_cons_self _ _
    · obtain ⟨h1, k, h2⟩ := ih (i + 1) h
      constructor
      · unfold imageParts
        exact List.mem_cons_of_mem _ (List.mem_cons_of_mem _ h1)
      · refine ⟨k, ?_⟩
        unfold imageParts
        exact List.mem_cons_of_mem _ (List.mem_cons_of_mem _ h2)

theorem sortByStartAsc_head_min :
    ∀ (l : List RecipePlugin.ImageLinkMatch), l ≠ [] →
      ∃ h rest, sortByStartAsc l = h :: rest ∧ h ∈ l ∧
        ∀ m ∈ l, h.start ≤ m.start := by
  intro l
  induction l with
  | nil => intro h; exact absurd rfl h
  | cons x xs ih =>
    intro _
    by_cases hxs : xs = []
    · subst hxs
      refine ⟨x, [], rfl, List.mem_cons_self x [], ?_⟩
      intro m hm
      rcases List.mem_cons.mp hm with rfl | hm
      · exact le_refl _
      · simp at hm
    · obtain ⟨h, rest, hsort, hmem, hmin⟩ := ih hxs
      unfold sortByStartAsc
      rw [hsort]
      unfold insertByStartAsc
      by_cases hc : x.start ≤ h.start
      · rw [if_pos hc]
        refine ⟨x, h :: rest, rfl, List.mem_cons_self x xs, ?_⟩
        intro m hm
        rcases List.mem_cons.mp hm with rfl | hm
        · exact le_refl _
        · exact le_trans hc (hmin m hm)
      · rw [if_neg hc]
        refine ⟨h, insertByStartAsc x rest, rfl, List.mem_cons_of_mem x hmem, ?_⟩
        intro m hm
        rcases List.mem_cons.mp hm with rfl | hm
        · omega
        · exact hmin m hm

/-- C2: when every image match resolves, the prompt is non-blank and the
LLM answers with non-blank text, the combined workflow issues exactly one
LLM request — a user message whose parts are the shared instruction text
followed by, for every resolved image, its labeled text part and its
`image_url` data-URL part, then the system message with the trimmed
prompt — and writes the document with the trimmed response plus a blank
line inserted exactly once, immediately before the earliest (lowest start
offset) image match, regardless of how many images were matched. -/
theorem extractWorkflow_single_request
    (resolver : Str → Option RecipePlugin.VFile)
    (readBinary : RecipePlugin.VFile → List Nat)
    (llm : List ChatMessage → Except Str Str) (prompt content r : Str)
    (hne : RecipePlugin.findImageLinks content ≠ [])
    (hres : ∀ m ∈ RecipePlugin.findImageLinks content,
      (resolver m.linkPath).isSome = true)
    (hprompt : RecipePlugin.jsTrim prompt ≠ [])
    (hllm : ∀ msgs, llm msgs = .ok r)
    (hr : RecipePlugin.jsTrim r ≠ []) :
    ∃ msgs e,
      (extractWorkflow resolver readBinary llm prompt content).requests = [msgs] ∧
      (∃ ps, msgs = [⟨.user, .parts ps⟩,
          ⟨.system, .str (RecipePlugin.jsTrim prompt)⟩] ∧
        ps.head? = some (.text instructionText) ∧
        ∀ m ∈ RecipePlugin.findImageLinks content, ∃ f,
          resolver m.linkPath = some f ∧
          ContentPart.imageUrl (dataUrlOf readBinary f) ∈ ps ∧
          ∃ k : Nat, ContentPart.text ("Image ".toList ++ ((toString k).toList ++
            (": ".toList ++ labelOrName ⟨f, m.linkPath⟩))) ∈ ps) ∧
      (extractWorkflow resolver readBinary llm prompt content).wrote =
        some (content.take e ++
          (RecipePlugin.jsTrim r ++ ('\n' :: '\n' :: content.drop e))) ∧
      (∃ m ∈ RecipePlugin.findImageLinks content, e = m.start) ∧
      (∀ m ∈ RecipePlugin.findImageLinks content, e ≤ m.start) := by
  obtain ⟨images, hp, hmem⟩ := resolveImages_ok hres
  obtain ⟨h0, rest0, hsort, hhead, hmin⟩ :=
    sortByStartAsc_head_min (RecipePlugin.findImageLinks content) hne
  have hEmpty : (RecipePlugin.findImageLinks content).isEmpty = false := by
    cases hl : RecipePlugin.findImageLinks content with
    | nil => exact absurd hl hne
    | cons a l => rfl
  have hupd : content.take h0.start ++
      (RecipePlugin.jsTrim r ++ ('\n' :: '\n' :: content.drop h0.start)) ≠
      content := by
    intro hEq
    have hlen := congrArg List.length hEq
    simp only [List.length_append, List.length_cons, List.length_take,
      List.length_drop] at hlen
    have h1 : 0 < (RecipePlugin.jsTrim r).length := List.length_pos.mpr hr
    omega
  have hout : extractWorkflow resolver readBinary llm prompt content =
      ⟨"Recipe information extracted and inserted for detected images.".toList,
        some (content.take h0.start ++
          (RecipePlugin.jsTrim r ++ ('\n' :: '\n' :: content.drop h0.start))),
        [imagesMessages readBinary prompt images]⟩ := by
    simp only [extractWorkflow, hEmpty, Bool.false_eq_true, if_false, hp,
      if_neg hprompt, hllm, if_neg hr, hsort, List.headD_cons, if_pos hupd]
  refine ⟨imagesMessages readBinary prompt images, h0.start,
    by rw [hout],
    ⟨ContentPart.text instructionText :: imageParts readBinary 0 images,
      rfl, rfl, ?_⟩,
    by rw [hout], ⟨h0, hhead, rfl⟩, fun m hm => hmin m hm⟩
  intro m hm
  obtain ⟨f, hf, hmemImg⟩ := hmem m hm
  obtain ⟨hurl, k, htext⟩ := mem_imageParts 0 hmemImg
  exact ⟨f, hf, List.mem_cons_of_mem _ hurl, k, List.mem_cons_of_mem _ htext⟩

/-- C2 witness: the combined workflow on the document used by the
repository's own test, with both images resolving, a concrete binary
reader and a concrete LLM response. -/
theorem extractWorkflow_single_request_witness :
    ∃ msgs e,
      (extractWorkflow
        (fun p => if p = "one.png".toList then
            some ⟨"one.png".toList, "one.png".toList, "png".toList⟩
          else if p = "two.jpg".toList then
            some ⟨"two.jpg".toList, "two.jpg".toList, "jpg".toList⟩
          else none)
        (fun _ => [72, 105])
        (fun _ => .ok ("CombinedText".toList))
        ("p".toList)
        ("Start\n![[one.png]]\nMiddle\n![two](two.jpg)\nEnd".toList)).requests =
        [msgs] ∧
      (∃ ps, msgs = [⟨.user, .parts ps⟩,
          ⟨.system, .str (RecipePlugin.jsTrim ("p".toList))⟩] ∧
        ps.head? = some (.text instructionText) ∧
        ∀ m ∈ RecipePlugin.findImageLinks
            ("Start\n![[one.png]]\nMiddle\n![two](two.jpg)\nEnd".toList), ∃ f,
          (fun p => if p = "one.png".toList then
              some (RecipePlugin.VFile.mk ("one.png".toList) ("one.png".toList)
                ("png".toList))
            else if p = "two.jpg".toList then
              some (RecipePlugin.VFile.mk ("two.jpg".toList) ("two.jpg".toList)
                ("jpg".toList))
            else none) m.linkPath = some f ∧
          ContentPart.imageUrl (dataUrlOf (fun _ => [72, 105]) f) ∈ ps ∧
          ∃ k : Nat, ContentPart.text ("Image ".toList ++ ((toString k).toList ++
            (": ".toList ++ labelOrName ⟨f, m.linkPath⟩))) ∈ ps) ∧
      (extractWorkflow
        (fun p => if p = "one.png".toList then
            some ⟨"one.png".toList, "one.png".toList, "png".toList⟩
          else if p = "two.jpg".toList then
            some ⟨"two.jpg".toList, "two.jpg".toList, "jpg".toList⟩
          else none)
        (fun _ => [72, 105])
        (fun _ => .ok ("CombinedText".toList))
        ("p".toList)
        ("Start\n![[one.png]]\nMiddle\n![two](two.jpg)\nEnd".toList)).wrote =
        some (("Start\n![[one.png]]\nMiddle\n![two](two.jpg)\nEnd".toList).take e ++
          (RecipePlugin.jsTrim ("CombinedText".toList) ++
            ('\n' :: '\n' ::
              ("Start\n![[one.png]]\nMiddle\n![two](two.jpg)\nEnd".toList).drop e))) ∧
      (∃ m ∈ RecipePlugin.findImageLinks
          ("Start\n![[one.png]]\nMiddle\n![two](two.jpg)\nEnd".toList),
        e = m.start) ∧
      (∀ m ∈ RecipePlugin.findImageLinks
          ("Start\n![[one.png]]\nMiddle\n![two](two.jpg)\nEnd".toList),
        e ≤ m.start) :=
  extractWorkflow_single_request _ _ _ _ _ _ (by decide) (by decide) (by decide)
    (fun _ => rfl) (by decide)

end Combined

end RecipePlugin
